import Mathlib

/-!
Shallow embedding of the `deno-router` package (`src/mod.ts`): a small HTTP
router that registers path patterns with handlers, runs an ordered middleware
chain before the matched handler, and normalizes responses and errors.

Modelling conventions:
* A request context is an abstract state type `σ`; middleware mutate it in
  place, which the embedding renders as explicit state passing.
* A thrown JS `Error` is `Err`; fallible computations return `Except Err _`
  (or carry `Option Err` where the source keeps running after mutation).
* `Response` keeps the observable fields the source sets: status, body,
  and the `Content-Type` header (absent when the source passes no headers).
* Handlers in the model also return the final context, so that which
  middleware and handlers executed is observable in the theorems.
-/

namespace DenoRouter

/-- Observable part of a JS `Response` as constructed by `src/mod.ts`:
status code, body string, and the `Content-Type` header when the source
sets one (`toJson`/`toText`/`toHtml`); `none` when the source passes no
headers (the default error and not-found responses). -/
structure Response where
  status : Nat
  body : String
  contentType : Option String
deriving DecidableEq, Repr

/-- Model of a thrown JS `Error`: only its `message` is observed. -/
structure Err where
  message : String
deriving DecidableEq, Repr

/-- Embeds `type Middleware = (ctx: Context) => Promise<void>`: a middleware
mutates the context (the `σ` component) and may throw (`some e`). -/
def Middleware (σ : Type) : Type := σ → σ × Option Err

/-- Embeds `type Handler = (ctx: Context) => Response | Promise<Response>`;
`Except` models a thrown error. -/
def Handler (σ : Type) : Type := σ → Except Err Response

/-- Embeds `type ErrorHandler = (ctx, err) => Response | Promise<Response>`. -/
def ErrorHandler (σ : Type) : Type := σ → Err → Response

/-- Embeds the `for (const mw of middlewares) await mw(ctx)` loop inside
`runMiddlewares` (src/mod.ts:268-270): run each middleware in order on the
threaded context, stopping at the first thrown error. -/
def runChain {σ : Type} (ctx : σ) : List (Middleware σ) → σ × Option Err
  | [] => (ctx, none)
  | mw :: rest =>
    match mw ctx with
    | (ctx2, none) => runChain ctx2 rest
    | (ctx2, some e) => (ctx2, some e)

/-- Embeds `runMiddlewares` (src/mod.ts:262-274): the loop wrapped in
`try/catch`, the catch calling `callErrorHandler(ctx, err)` and discarding
its result. The model returns the mutated context together with the list of
error-handler invocation results, so invocations stay observable; the source
computes each result and drops it. -/
def runMiddlewares {σ : Type} (ctx : σ) (callErrorHandler : ErrorHandler σ)
    (middlewares : List (Middleware σ)) : σ × List Response :=
  match runChain ctx middlewares with
  | (ctx2, none) => (ctx2, [])
  | (ctx2, some e) => (ctx2, [callErrorHandler ctx2 e])

/-- Embeds `createRouterHandler` (src/mod.ts:205-219): make a fresh context,
`await runMiddlewares(ctx, errorHandler, middlewares)` — whose error-handler
result the source drops — then unconditionally `return handler(ctx)`. The
model takes the fresh context as input and also returns the final context. -/
def createRouterHandler {σ : Type} (handler : Handler σ)
    (errorHandler : ErrorHandler σ) (middlewares : List (Middleware σ)) :
    σ → σ × Except Err Response :=
  fun ctx0 =>
    match runMiddlewares ctx0 errorHandler middlewares with
    | (ctx, _discarded) => (ctx, handler ctx)

/-- Embeds `createDenoHandler` (src/mod.ts:221-234): identical pipeline to
`createRouterHandler` but built for the not-found path (no matched params). -/
def createDenoHandler {σ : Type} (handler : Handler σ)
    (errorHandler : ErrorHandler σ) (middlewares : List (Middleware σ)) :
    σ → σ × Except Err Response :=
  fun ctx0 =>
    match runMiddlewares ctx0 errorHandler middlewares with
    | (ctx, _discarded) => (ctx, handler ctx)

/-- Embeds the initial `errorHandler` (src/mod.ts:145-146):
`new Response("Error: " + err.message, \x7b status: 500 \x7d)`. -/
def defaultErrorHandler {σ : Type} : ErrorHandler σ :=
  fun _ err => ⟨500, "Error: " ++ err.message, none⟩

/-- Embeds the initial `notFoundHandler` (src/mod.ts:151-152):
`() => Promise.resolve(new Response("Not Found", \x7b status: 404 \x7d))`;
it runs no middleware and ignores the context. -/
def defaultNotFoundHandler {σ : Type} : σ → σ × Except Err Response :=
  fun ctx => (ctx, Except.ok ⟨404, "Not Found", none⟩)

/-- Embeds a `Route` entry as `factory` pushes it (src/mod.ts:169-176):
a method list, a path pattern (kept abstract as a path predicate, since
`URLPattern` is a platform primitive), and the compiled handler closure. -/
structure RouteEntry (σ : Type) where
  method : List String
  pattern : String → Bool
  handler : σ → σ × Except Err Response

/-- Mutable state owned by one `router()` instance (src/mod.ts:141-203):
the route table, the global middleware list, and the current error and
not-found handlers. -/
structure RouterState (σ : Type) where
  routes : List (RouteEntry σ)
  globalMiddlewares : List (Middleware σ)
  errorHandler : ErrorHandler σ
  notFoundHandler : σ → σ × Except Err Response

/-- State of a freshly created `router()`: empty route table and middleware
list, default error and not-found handlers. -/
def routerInit {σ : Type} : RouterState σ :=
  ⟨[], [], defaultErrorHandler, defaultNotFoundHandler⟩

/-- Embeds `onError` (src/mod.ts:147-149): replace the current error handler. -/
def onError {σ : Type} (handler : ErrorHandler σ) (s : RouterState σ) :
    RouterState σ :=
  { s with errorHandler := handler }

/-- Embeds `onNotFound` (src/mod.ts:153-157): recompile the not-found handler
from the given handler, the current error handler, and a copy
(`[...globalMiddlewares]`) of the current global middleware list. -/
def onNotFound {σ : Type} (handler : Handler σ) (s : RouterState σ) :
    RouterState σ :=
  { s with notFoundHandler :=
      createDenoHandler handler s.errorHandler s.globalMiddlewares }

/-- Embeds `use` (src/mod.ts:159-161): append the given middlewares to the
global middleware list. -/
def use {σ : Type} (middlewares : List (Middleware σ)) (s : RouterState σ) :
    RouterState σ :=
  { s with globalMiddlewares := s.globalMiddlewares ++ middlewares }

/-- Embeds the registration closure returned by `factory(method)`
(src/mod.ts:163-178): push a route whose method list is the upper-cased
method, whose handler is compiled by `createRouterHandler` from the current
error handler and `[...globalMiddlewares, ...middlewares]`. -/
def registerRoute {σ : Type} (method : String) (pattern : String → Bool)
    (handler : Handler σ) (middlewares : List (Middleware σ))
    (s : RouterState σ) : RouterState σ :=
  { s with routes := s.routes ++
      [⟨[method.toUpper], pattern,
        createRouterHandler handler s.errorHandler
          (s.globalMiddlewares ++ middlewares)⟩] }

/-- Modelled from the spec: the matching test of the external
`route(routes, notFoundHandler)` primitive (`jsr:@std/http/unstable-route`,
consumed at src/mod.ts:184 but not part of this repository) — a route
matches when its method list contains the request method and its pattern
matches the path. -/
def matchesRequest {σ : Type} (method path : String) (r : RouteEntry σ) :
    Bool :=
  r.method.contains method && r.pattern path

/-- Modelled from the spec: the dispatch of the external
`route(routes, notFoundHandler)` primitive — scan the table in registration
order, the first matching route's handler wins, otherwise the not-found
handler runs. -/
def handleRequest {σ : Type} (s : RouterState σ) (method path : String)
    (ctx : σ) : σ × Except Err Response :=
  match s.routes.find? (matchesRequest method path) with
  | some r => r.handler ctx
  | none => s.notFoundHandler ctx

/-- Embeds the `Map<string, unknown>` store backing `createUserData`
(src/mod.ts:253-260) as an insertion-ordered association list with unique
keys; values are an arbitrary type `V`. -/
abbrev UserData (V : Type) : Type := List (String × V)

/-- Does the store hold the key (JS `Map` key lookup)? -/
def UserData.hasKey {V : Type} (store : UserData V) (key : String) : Bool :=
  store.any (fun p => p.1 == key)

/-- Embeds `set = (key, value) => store.set(key, value)`: JS `Map.set`
overwrites the value of an existing key in place, else appends the entry. -/
def UserData.set {V : Type} (store : UserData V) (key : String) (value : V) :
    UserData V :=
  if store.hasKey key then
    store.map (fun p => if p.1 == key then (key, value) else p)
  else store ++ [(key, value)]

/-- Embeds `get = (key) => store.get(key)`: the value when present,
`none` (JS `undefined`) when absent; total, never throws. -/
def UserData.get {V : Type} (store : UserData V) (key : String) : Option V :=
  (store.find? (fun p => p.1 == key)).map Prod.snd

/-- Embeds `del = (key) => store.delete(key)`: JS `Map.delete` removes the
entry and reports whether the key existed. The model returns the report
together with the updated store. -/
def UserData.del {V : Type} (store : UserData V) (key : String) :
    Bool × UserData V :=
  (store.hasKey key, store.filter (fun p => !(p.1 == key)))

/-- JSON-serializable JS values as handlers pass them to `ctx.json`:
`num` covers integral JS numbers, `bigint` the arbitrary-precision
integers the `jsonReplacer` (src/mod.ts:276-277) rewrites. -/
inductive JsonValue where
  | null : JsonValue
  | bool (b : Bool) : JsonValue
  | num (n : Int) : JsonValue
  | str (s : String) : JsonValue
  | bigint (n : Int) : JsonValue
  | arr (elems : List JsonValue) : JsonValue
  | obj (fields : List (String × JsonValue)) : JsonValue
deriving Repr

/-- Embeds `jsonReplacer` (src/mod.ts:276-277):
`typeof value === "bigint" ? value.toString() : value` — a bigint becomes
its decimal string, every other value is returned unchanged. -/
def jsonReplacer : JsonValue → JsonValue
  | .bigint n => .str (toString n)
  | v => v

/-- JSON string escaping for the characters the encoder must escape. -/
def escapeJsonChar (c : Char) : String :=
  if c = '"' then "\\\""
  else if c = '\\' then "\\\\"
  else if c = '\n' then "\\n"
  else if c = '\r' then "\\r"
  else if c = '\t' then "\\t"
  else String.singleton c

/-- Escape a string body and wrap it in JSON quotes. -/
def quoteJson (s : String) : String :=
  "\"" ++ String.join (s.toList.map escapeJsonChar) ++ "\""

mutual

/-- Applies a value replacer at every node, as `JSON.stringify(body, r)`
does before serializing each value. `jsonReplacer` only rewrites `bigint`
leaves, so this bottom-up traversal coincides with the source's top-down
application order. -/
def mapJson (f : JsonValue → JsonValue) : JsonValue → JsonValue
  | .null => f .null
  | .bool b => f (.bool b)
  | .num n => f (.num n)
  | .str s => f (.str s)
  | .bigint n => f (.bigint n)
  | .arr elems => f (.arr (mapJsonList f elems))
  | .obj fields => f (.obj (mapJsonFields f fields))

/-- List part of `mapJson` (array elements). -/
def mapJsonList (f : JsonValue → JsonValue) : List JsonValue → List JsonValue
  | [] => []
  | v :: rest => mapJson f v :: mapJsonList f rest

/-- Field part of `mapJson` (object properties). -/
def mapJsonFields (f : JsonValue → JsonValue) :
    List (String × JsonValue) → List (String × JsonValue)
  | [] => []
  | p :: rest => (p.1, mapJson f p.2) :: mapJsonFields f rest

end

mutual

/-- Plain `JSON.stringify` on an already-replaced value: `none` models the
`TypeError` it throws on a surviving bigint (`Do not know how to serialize
a BigInt`); every other value serializes. -/
def stringifyJson : JsonValue → Option String
  | .null => some "null"
  | .bool true => some "true"
  | .bool false => some "false"
  | .num n => some (toString n)
  | .str s => some (quoteJson s)
  | .bigint _ => none
  | .arr elems =>
    (stringifyJsonList elems).map
      (fun xs => "[" ++ String.intercalate "," xs ++ "]")
  | .obj fields =>
    (stringifyJsonFields fields).map
      (fun xs => "\x7b" ++ String.intercalate "," xs ++ "\x7d")

/-- List part of `stringifyJson` (array elements, in order). -/
def stringifyJsonList : List JsonValue → Option (List String)
  | [] => some []
  | v :: rest =>
    match stringifyJson v, stringifyJsonList rest with
    | some s, some ss => some (s :: ss)
    | _, _ => none

/-- Field part of `stringifyJson` (`"key":value` pairs, in order). -/
def stringifyJsonFields : List (String × JsonValue) → Option (List String)
  | [] => some []
  | p :: rest =>
    match stringifyJson p.2, stringifyJsonFields rest with
    | some s, some ss => some ((quoteJson p.1 ++ ":" ++ s) :: ss)
    | _, _ => none

end

/-- Embeds `toJson` (src/mod.ts:279-289):
`new Response(JSON.stringify(body, jsonReplacer), ...)` with the given
status and `Content-Type: application/json`; `none` models the call
throwing because serialization failed. -/
def toJson (statusCode : Nat) (body : JsonValue) : Option Response :=
  (stringifyJson (mapJson jsonReplacer body)).map
    (fun s => ⟨statusCode, s, some "application/json"⟩)

/-- Embeds `toText` (src/mod.ts:291-301): the body verbatim with the given
status and `Content-Type: text/plain`. -/
def toText (statusCode : Nat) (text : String) : Response :=
  ⟨statusCode, text, some "text/plain"⟩

/-- Embeds `toHtml` (src/mod.ts:303-313): the body verbatim with the given
status and `Content-Type: text/html`. -/
def toHtml (statusCode : Nat) (html : String) : Response :=
  ⟨statusCode, html, some "text/html"⟩

/-- Instruments a middleware with an index: executing it additionally
appends the index to a trace carried alongside the context, so theorems can
speak about which middlewares ran and in what order. -/
def traced {σ : Type} (i : Nat) (mw : Middleware σ) :
    Middleware (σ × List Nat) :=
  fun sl => (((mw sl.1).1, sl.2 ++ [i]), (mw sl.1).2)

/-- A middleware chain instrumented with the positions of its members. -/
def tracedChain {σ : Type} (mws : List (Middleware σ)) :
    List (Middleware (σ × List Nat)) :=
  mws.enum.map (fun p => traced p.1 p.2)

/-- Fixture: middleware that records the string "global" in a trace
context and succeeds. -/
def cLogMw : Middleware (List String) := fun s => (s ++ ["global"], none)

/-- Fixture: middleware that records "mw" in a trace context and then
throws `Error("boom")`. -/
def cFailMw : Middleware (List String) := fun s => (s ++ ["mw"], some ⟨"boom"⟩)

/-- Fixture: terminal handler returning a 200 response with body
"handler". -/
def cHandler : Handler (List String) := fun _ => Except.ok ⟨200, "handler", none⟩

/-- Fixture: succeeding middleware over a counter context. -/
def cOkMw : Middleware Nat := fun n => (n + 1, none)

/-- Fixture: failing middleware over a counter context. -/
def cBadMw : Middleware Nat := fun n => (n, some ⟨"boom"⟩)

/-- Fixture: terminal handler that throws `Error("handler boom")`. -/
def cThrowHandler : Handler Nat := fun _ => Except.error ⟨"handler boom"⟩

/-- Fixture: route `GET /a` answering with body "r1". -/
def cRoute1 : RouteEntry Nat :=
  ⟨["GET"], fun p => p == "/a", fun n => (n, Except.ok ⟨200, "r1", none⟩)⟩

/-- Fixture: catch-all route for `GET` answering with body "r2". -/
def cRoute2 : RouteEntry Nat :=
  ⟨["GET"], fun _ => true, fun n => (n, Except.ok ⟨200, "r2", none⟩)⟩

/-- Fixture: a router whose table holds `cRoute1` before `cRoute2`. -/
def cRouterTwoRoutes : RouterState Nat :=
  ⟨[cRoute1, cRoute2], [], defaultErrorHandler, defaultNotFoundHandler⟩

/-- Running a chain whose head succeeds continues with the mutated context
and the remaining middlewares. -/
theorem runChain_cons_ok {σ : Type} (mw : Middleware σ)
    (rest : List (Middleware σ)) (ctx : σ) (h : (mw ctx).2 = none) :
    runChain ctx (mw :: rest) = runChain (mw ctx).1 rest := by
  rcases hmc : mw ctx with ⟨c, e⟩
  rw [hmc] at h
  simp only at h
  subst h
  simp [runChain, hmc]

/-- Running a chain whose head throws stops at once with that error. -/
theorem runChain_cons_err {σ : Type} (mw : Middleware σ)
    (rest : List (Middleware σ)) (ctx : σ) (e : Err)
    (h : (mw ctx).2 = some e) :
    runChain ctx (mw :: rest) = ((mw ctx).1, some e) := by
  rcases hmc : mw ctx with ⟨c, e2⟩
  rw [hmc] at h
  simp only at h
  subst h
  simp [runChain, hmc]

/-- The context produced by `runMiddlewares` is the one the loop produced;
the catch block only computes the discarded error-handler result. -/
theorem runMiddlewares_fst {σ : Type} (ctx : σ) (eh : ErrorHandler σ)
    (mws : List (Middleware σ)) :
    (runMiddlewares ctx eh mws).1 = (runChain ctx mws).1 := by
  unfold runMiddlewares
  rcases h : runChain ctx mws with ⟨c, e⟩
  cases e <;> simp

/-- Running an instrumented chain of everywhere-succeeding middlewares
appends exactly the indices `k, k+1, ...` of all its members to the trace. -/
theorem runChain_traced_ok {σ : Type} (mws : List (Middleware σ))
    (h : ∀ mw ∈ mws, ∀ s, (mw s).2 = none) :
    ∀ (k : Nat) (ctx : σ) (log : List Nat),
      runChain (ctx, log) ((mws.enumFrom k).map (fun p => traced p.1 p.2))
        = (((runChain ctx mws).1, log ++ List.range' k mws.length), none) := by
  induction mws with
  | nil => intro k ctx log; simp [runChain, List.range']
  | cons mw rest ih =>
    intro k ctx log
    have hmw : (mw ctx).2 = none := h mw (by simp) ctx
    have hrest : ∀ m ∈ rest, ∀ s, (m s).2 = none :=
      fun m hm s => h m (by simp [hm]) s
    have hhead : (traced k mw (ctx, log)).2 = none := hmw
    rw [List.enumFrom_cons, List.map_cons,
      runChain_cons_ok _ _ _ hhead, runChain_cons_ok _ _ _ hmw]
    have htr : (traced k mw (ctx, log)).1 = ((mw ctx).1, log ++ [k]) := rfl
    rw [htr, ih hrest (k + 1) (mw ctx).1 (log ++ [k])]
    simp [List.range'_succ]

/-- Running an instrumented chain whose members up to a failing middleware
succeed appends exactly the indices up to and including the failing one:
nothing after the failure executes, whatever follows it. -/
theorem runChain_traced_err {σ : Type} (pre : List (Middleware σ))
    (f : Middleware σ) (post : List (Middleware σ))
    (hpre : ∀ mw ∈ pre, ∀ s, (mw s).2 = none)
    (hf : ∀ s, (f s).2 ≠ none) :
    ∀ (k : Nat) (ctx : σ) (log : List Nat),
      ((runChain (ctx, log)
          (((pre ++ f :: post).enumFrom k).map (fun p => traced p.1 p.2))).1).2
        = log ++ List.range' k (pre.length + 1) := by
  induction pre with
  | nil =>
    intro k ctx log
    rcases he : (f ctx).2 with _ | e
    · exact absurd he (hf ctx)
    have hhead : (traced k f (ctx, log)).2 = some e := he
    rw [List.nil_append, List.enumFrom_cons, List.map_cons,
      runChain_cons_err _ _ _ _ hhead]
    simp [traced, List.range'_succ, List.range']
  | cons mw rest ih =>
    intro k ctx log
    have hmw : (mw ctx).2 = none := hpre mw (by simp) ctx
    have hrest : ∀ m ∈ rest, ∀ s, (m s).2 = none :=
      fun m hm s => hpre m (by simp [hm]) s
    have hhead : (traced k mw (ctx, log)).2 = none := hmw
    rw [List.cons_append, List.enumFrom_cons, List.map_cons,
      runChain_cons_ok _ _ _ hhead]
    have htr : (traced k mw (ctx, log)).1 = ((mw ctx).1, log ++ [k]) := rfl
    rw [htr, ih hrest (k + 1) (mw ctx).1 (log ++ [k])]
    simp [List.range'_succ]

/-- C1: the spec says a middleware failure invokes the error handler exactly
once with the context and the error, that the error handler's Response is
the final response, and that the terminal handler never runs. The code
invokes the error handler once (first conjunct: one invocation, producing
the default 500 response) but `runMiddlewares` discards its result and
`createRouterHandler` then runs the terminal handler unconditionally, so
the request's final response is the handler's 200 response (second
conjunct), contradicting the spec's intent shown by the README's
authorization-middleware example. -/
theorem c1_error_response_discarded :
    runMiddlewares ([] : List String) defaultErrorHandler [cFailMw]
      = (["mw"], [⟨500, "Error: boom", none⟩])
    ∧ createRouterHandler cHandler defaultErrorHandler [cFailMw] []
      = (["mw"], Except.ok ⟨200, "handler", none⟩) := by
  constructor <;> rfl

/-- C2: for every pair of registered routes R1 before R2 both matching the
request method and path, with no still-earlier matching route, dispatch
runs R1's compiled handler: the table is scanned in registration order and
the first route whose method list contains the method and whose pattern
matches the path wins. -/
theorem c2_registration_order_precedence {σ : Type} (s : RouterState σ)
    (pre mid post : List (RouteEntry σ)) (r1 r2 : RouteEntry σ)
    (method path : String) (ctx : σ)
    (hroutes : s.routes = pre ++ r1 :: (mid ++ r2 :: post))
    (hpre : ∀ r ∈ pre, matchesRequest method path r = false)
    (h1 : matchesRequest method path r1 = true)
    (h2 : matchesRequest method path r2 = true) :
    handleRequest s method path ctx = r1.handler ctx := by
  have haux : ∀ l : List (RouteEntry σ),
      (∀ r ∈ l, matchesRequest method path r = false) →
      (l ++ r1 :: (mid ++ r2 :: post)).find? (matchesRequest method path)
        = some r1 := by
    intro l
    induction l with
    | nil => intro _; simp [h1]
    | cons a as ih =>
      intro hp
      rw [List.cons_append, List.find?_cons_of_neg]
      · exact ih (fun r hr => hp r (by simp [hr]))
      · simp [hp a (by simp)]
  have hfind : s.routes.find? (matchesRequest method path) = some r1 := by
    rw [hroutes]
    exact haux pre hpre
  simp [handleRequest, hfind]

/-- C2 witness: with `GET /a` registered before a catch-all `GET` route,
a `GET /a` request is answered by the first route's handler. -/
theorem c2_witness :
    handleRequest cRouterTwoRoutes "GET" "/a" 7
      = (7, Except.ok ⟨200, "r1", none⟩) := by
  have h := c2_registration_order_precedence cRouterTwoRoutes
    [] [] [] cRoute1 cRoute2 "GET" "/a" 7 rfl
    (by intro r hr; cases hr) rfl rfl
  exact h.trans rfl

/-- C3: for a matched route's chain, built by `factory` as the global
middlewares (in `use`-call order) followed by the per-route middlewares
(in the order passed at registration), execution appends traces in exactly
declared order: when every middleware succeeds the trace lists all
positions in order (global positions before per-route positions); when the
chain decomposes as a succeeding prefix, a failing middleware, and any
suffix, only the prefix and the failing middleware execute — nothing after
the failing one, whatever the suffix holds. -/
theorem c3_middleware_order {σ : Type} (globals routeMws : List (Middleware σ))
    (eh : ErrorHandler (σ × List Nat)) (ctx : σ) :
    ((∀ mw ∈ globals ++ routeMws, ∀ s, (mw s).2 = none) →
      ((runMiddlewares (ctx, ([] : List Nat)) eh
          (tracedChain (globals ++ routeMws))).1).2
        = List.range (globals.length + routeMws.length))
    ∧ (∀ pre f post, globals ++ routeMws = pre ++ f :: post →
        (∀ mw ∈ pre, ∀ s, (mw s).2 = none) →
        (∀ s, (f s).2 ≠ none) →
        ((runMiddlewares (ctx, ([] : List Nat)) eh
            (tracedChain (globals ++ routeMws))).1).2
          = List.range (pre.length + 1)) := by
  constructor
  · intro hok
    rw [runMiddlewares_fst, tracedChain, List.enum,
      runChain_traced_ok (globals ++ routeMws) hok 0 ctx []]
    simp [List.range_eq_range', List.length_append]
  · intro pre f post hsplit hpre hf
    rw [runMiddlewares_fst, tracedChain, List.enum, hsplit,
      runChain_traced_err pre f post hpre hf 0 ctx []]
    simp [List.range_eq_range']

/-- C3 witness: a succeeding global middleware before a succeeding route
middleware traces positions 0 then 1; a succeeding global middleware before
a failing route middleware followed by another traces positions 0 and 1
only. -/
theorem c3_witness :
    ((runMiddlewares ((0 : Nat), ([] : List Nat)) defaultErrorHandler
        (tracedChain ([cOkMw] ++ [cOkMw]))).1).2 = List.range 2
    ∧ ((runMiddlewares ((0 : Nat), ([] : List Nat)) defaultErrorHandler
        (tracedChain ([cOkMw] ++ [cBadMw, cOkMw]))).1).2 = List.range 2 := by
  constructor
  · exact (c3_middleware_order [cOkMw] [cOkMw] defaultErrorHandler 0).1
      (by intro mw hmw s; rw [List.mem_append] at hmw
          rcases hmw with h | h <;>
            (rw [List.mem_singleton] at h; subst h; rfl))
  · exact (c3_middleware_order [cOkMw] [cBadMw, cOkMw] defaultErrorHandler 0).2
      [cOkMw] cBadMw [cOkMw] rfl
      (by intro mw hmw s; rw [List.mem_singleton] at hmw; subst hmw; rfl)
      (by intro s h; simp [cBadMw] at h)

/-- C4 counterexample: the claim says an unmatched request runs the global
middleware before the not-found handler. In a router where `use` registered
a tracing global middleware but `onNotFound` was never called, an unmatched
`GET /missing` request is answered by the default 404 handler with an empty
trace: the global middleware never ran. -/
theorem c4_counterexample :
    handleRequest (use [cLogMw] (routerInit : RouterState (List String)))
        "GET" "/missing" []
      = ([], Except.ok ⟨404, "Not Found", none⟩)
    ∧ "global" ∉ (handleRequest
        (use [cLogMw] (routerInit : RouterState (List String)))
        "GET" "/missing" ([] : List String)).1 := by
  refine ⟨rfl, ?_⟩
  intro h
  have hnil : (handleRequest
      (use [cLogMw] (routerInit : RouterState (List String)))
      "GET" "/missing" ([] : List String)).1 = [] := rfl
  rw [hnil] at h
  exact absurd h (List.not_mem_nil _)

/-- C4 amended: for every request matching no registered route, no
route-specific middleware and no route handler is invoked — dispatch runs
only the compiled not-found handler. That handler runs exactly the global
middlewares captured at the most recent `onNotFound` call followed by the
handler given there; when `onNotFound` was never called it is the default
404 handler, which runs no middleware and leaves the context untouched. -/
theorem c4_unmatched_runs_notfound_snapshot {σ : Type} (s : RouterState σ)
    (method path : String) (ctx : σ)
    (hmiss : s.routes.find? (matchesRequest method path) = none) :
    handleRequest s method path ctx = s.notFoundHandler ctx
    ∧ (∀ h0 : Handler σ, (onNotFound h0 s).notFoundHandler ctx
        = createDenoHandler h0 s.errorHandler s.globalMiddlewares ctx)
    ∧ (routerInit : RouterState σ).notFoundHandler ctx
        = (ctx, Except.ok ⟨404, "Not Found", none⟩) := by
  refine ⟨?_, fun _ => rfl, rfl⟩
  unfold handleRequest
  rw [hmiss]

/-- C4 witness: in a router with one global middleware and no routes, an
unmatched request is handled by the router's not-found handler. -/
theorem c4_witness :
    handleRequest (use [cLogMw] (routerInit : RouterState (List String)))
        "GET" "/missing" []
      = (use [cLogMw] (routerInit : RouterState (List String))).notFoundHandler
          [] :=
  (c4_unmatched_runs_notfound_snapshot
    (use [cLogMw] (routerInit : RouterState (List String)))
    "GET" "/missing" [] rfl).1

/-- C5: `onNotFound` compiles the not-found handler from the handler, the
current error handler, and a copy of the global middleware list as it
exists at that moment; a subsequent `use` call leaves the already-compiled
not-found handler unchanged. -/
theorem c5_onnotfound_snapshot {σ : Type} (s : RouterState σ)
    (handler : Handler σ) (ms : List (Middleware σ)) :
    (use ms (onNotFound handler s)).notFoundHandler
      = (onNotFound handler s).notFoundHandler
    ∧ (onNotFound handler s).notFoundHandler
      = createDenoHandler handler s.errorHandler s.globalMiddlewares :=
  ⟨rfl, rfl⟩

/-- C6: the terminal handler's outcome passes through dispatch untouched —
`createRouterHandler` returns exactly the handler's result on the
middleware-mutated context (first conjunct), the error handler is invoked
iff some middleware failed (second conjunct), and in particular an error
thrown by the handler propagates out of the dispatch function instead of
being intercepted by the configured error handler (third conjunct). -/
theorem c6_handler_errors_bypass_error_handler {σ : Type}
    (handler : Handler σ) (eh : ErrorHandler σ)
    (mws : List (Middleware σ)) (ctx : σ) :
    ((createRouterHandler handler eh mws ctx).2
      = handler ((runChain ctx mws).1))
    ∧ ((runMiddlewares ctx eh mws).2 ≠ [] ↔ (runChain ctx mws).2 ≠ none)
    ∧ (∀ e, handler ((runChain ctx mws).1) = Except.error e →
        (createRouterHandler handler eh mws ctx).2 = Except.error e) := by
  refine ⟨?_, ?_, ?_⟩
  · unfold createRouterHandler
    rw [show (runMiddlewares ctx eh mws) = ((runMiddlewares ctx eh mws).1,
      (runMiddlewares ctx eh mws).2) from rfl, runMiddlewares_fst]
  · unfold runMiddlewares
    rcases h : runChain ctx mws with ⟨c, e⟩
    cases e <;> simp
  · intro e he
    unfold createRouterHandler
    rw [show (runMiddlewares ctx eh mws) = ((runMiddlewares ctx eh mws).1,
      (runMiddlewares ctx eh mws).2) from rfl, runMiddlewares_fst]
    exact he

/-- C6 witness: with no middleware, a handler that throws
`Error("handler boom")` makes the dispatch function itself return that
error. -/
theorem c6_witness :
    (createRouterHandler cThrowHandler defaultErrorHandler [] 0).2
      = Except.error ⟨"handler boom"⟩ :=
  (c6_handler_errors_bypass_error_handler cThrowHandler defaultErrorHandler
    [] 0).2.2 ⟨"handler boom"⟩ rfl

/-- C7: a fresh router's error handler returns status 500 with a text body
embedding the error's message, and its not-found handler returns status 404
with the fixed body "Not Found" and no further detail, leaving the context
untouched; both are in effect until overridden via `onError`/`onNotFound`. -/
theorem c7_default_handlers {σ : Type} (ctx : σ) (e : Err) :
    (routerInit : RouterState σ).errorHandler ctx e
      = ⟨500, "Error: " ++ e.message, none⟩
    ∧ (routerInit : RouterState σ).notFoundHandler ctx
      = (ctx, Except.ok ⟨404, "Not Found", none⟩) :=
  ⟨rfl, rfl⟩

/-- C10: registering a route compiles its handler from the error handler
and a copy of the global middleware list current at registration time
(`[...globalMiddlewares, ...middlewares]`); calling `onError` or `use`
afterwards, in either order, leaves the already-registered route exactly
as compiled from that snapshot. -/
theorem c10_route_captures_registration_state {σ : Type} (s : RouterState σ)
    (method : String) (pattern : String → Bool) (handler : Handler σ)
    (mws ms : List (Middleware σ)) (eh : ErrorHandler σ) :
    (use ms (onError eh (registerRoute method pattern handler mws s))).routes
      = s.routes ++ [⟨[method.toUpper], pattern,
          createRouterHandler handler s.errorHandler
            (s.globalMiddlewares ++ mws)⟩]
    ∧ (onError eh (use ms (registerRoute method pattern handler mws s))).routes
      = s.routes ++ [⟨[method.toUpper], pattern,
          createRouterHandler handler s.errorHandler
            (s.globalMiddlewares ++ mws)⟩] :=
  ⟨rfl, rfl⟩

/-- Lookup misses on a store that does not hold the key. -/
theorem UserData.find_eq_none {V : Type} (store : UserData V) (k : String)
    (h : store.hasKey k = false) :
    store.find? (fun p => p.1 == k) = none := by
  unfold UserData.hasKey at h
  rw [List.any_eq_false] at h
  exact List.find?_eq_none.mpr h

/-- Overwriting an existing key makes lookup land on the new entry. -/
theorem UserData.find_overwrite {V : Type} (store : UserData V) (k : String)
    (v : V) (h : store.hasKey k = true) :
    (store.map (fun p => if p.1 == k then (k, v) else p)).find?
      (fun p => p.1 == k) = some (k, v) := by
  induction store with
  | nil => simp [UserData.hasKey] at h
  | cons p rest ih =>
    by_cases hp : (p.1 == k) = true
    · rw [List.map_cons, if_pos hp, List.find?_cons_of_pos]
      simp
    · rw [List.map_cons, if_neg hp]
      rw [Bool.not_eq_true] at hp
      rw [List.find?_cons, hp]
      refine ih ?_
      unfold UserData.hasKey at h ⊢
      rw [List.any_cons] at h
      simpa [hp] using h

/-- After `set`, the store holds the key. -/
theorem UserData.hasKey_set {V : Type} (store : UserData V) (k : String)
    (v : V) : (UserData.set store k v).hasKey k = true := by
  unfold UserData.set
  by_cases h : store.hasKey k = true
  · rw [if_pos h]
    have hfind := UserData.find_overwrite store k v h
    unfold UserData.hasKey
    rw [List.any_eq_true]
    exact ⟨(k, v), List.mem_of_find?_eq_some hfind, by simp⟩
  · rw [if_neg h]
    unfold UserData.hasKey
    simp

/-- After deleting a key, the store no longer holds it. -/
theorem UserData.hasKey_filter {V : Type} (store : UserData V) (k : String) :
    UserData.hasKey (store.filter (fun p => !(p.1 == k))) k = false := by
  unfold UserData.hasKey
  rw [List.any_eq_false]
  intro x hx
  rw [List.mem_filter] at hx
  simpa using hx.2

/-- C9: in the `createUserData` store, `get` after `set` returns the set
value; `del` after `set` reports `true` and an immediately following second
`del` of the same key reports `false`; and `get` is a total function that
returns the absent marker `none` on any store not holding the key — it
never throws. -/
theorem c9_userdata_store {V : Type} (store : UserData V) (k : String)
    (v : V) :
    UserData.get (UserData.set store k v) k = some v
    ∧ (UserData.del (UserData.set store k v) k).1 = true
    ∧ (UserData.del ((UserData.del (UserData.set store k v) k).2) k).1 = false
    ∧ ∀ absent : UserData V, (∀ p ∈ absent, p.1 ≠ k) →
        UserData.get absent k = none := by
  refine ⟨?_, UserData.hasKey_set store k v, UserData.hasKey_filter _ k, ?_⟩
  · unfold UserData.get UserData.set
    by_cases h : store.hasKey k = true
    · rw [if_pos h, UserData.find_overwrite store k v h]
      rfl
    · rw [if_neg h, List.find?_append,
        UserData.find_eq_none store k (by simpa using h)]
      simp
  · intro absent habs
    unfold UserData.get
    rw [List.find?_eq_none.mpr (fun x hx => by simpa using habs x hx)]
    rfl

/-- C9 witness: on the empty store, `set "k" 1` then `get "k"` yields 1,
`del "k"` yields `true`, a second `del "k"` yields `false`; `get "k"` on a
store holding only another key yields `none`. -/
theorem c9_witness :
    UserData.get (UserData.set ([] : UserData Nat) "k" 1) "k" = some 1
    ∧ (UserData.del (UserData.set ([] : UserData Nat) "k" 1) "k").1 = true
    ∧ (UserData.del ((UserData.del (UserData.set ([] : UserData Nat) "k" 1)
        "k").2) "k").1 = false
    ∧ UserData.get ([("a", 2)] : UserData Nat) "k" = none := by
  obtain ⟨h1, h2, h3, h4⟩ := c9_userdata_store ([] : UserData Nat) "k" 1
  exact ⟨h1, h2, h3, h4 [("a", 2)]
    (by intro p hp; rw [List.mem_singleton] at hp; subst hp; decide)⟩

/-- Structural induction for `JsonValue` with membership hypotheses for the
nested lists, obtained by strong induction on `sizeOf`. -/
theorem JsonValue.induction_mem (P : JsonValue → Prop)
    (hnull : P JsonValue.null)
    (hbool : ∀ b, P (JsonValue.bool b))
    (hnum : ∀ n, P (JsonValue.num n))
    (hstr : ∀ s, P (JsonValue.str s))
    (hbig : ∀ n, P (JsonValue.bigint n))
    (harr : ∀ elems, (∀ v ∈ elems, P v) → P (JsonValue.arr elems))
    (hobj : ∀ fields, (∀ p ∈ fields, P p.2) → P (JsonValue.obj fields)) :
    ∀ v, P v := by
  have key : ∀ n : Nat, ∀ v : JsonValue, sizeOf v < n → P v := by
    intro n
    induction n with
    | zero => intro v hv; exact absurd hv (Nat.not_lt_zero _)
    | succ n ih =>
      intro v hv
      cases v with
      | null => exact hnull
      | bool b => exact hbool b
      | num m => exact hnum m
      | str s => exact hstr s
      | bigint m => exact hbig m
      | arr elems =>
        have h2 : sizeOf (JsonValue.arr elems) = 1 + sizeOf elems := by simp
        refine harr elems (fun u hu => ih u ?_)
        have h1 := List.sizeOf_lt_of_mem hu
        omega
      | obj fields =>
        have h3 : sizeOf (JsonValue.obj fields) = 1 + sizeOf fields := by simp
        refine hobj fields (fun p hp => ih p.2 ?_)
        have h1 := List.sizeOf_lt_of_mem hp
        have h2 : sizeOf p.2 < sizeOf p := by
          obtain ⟨a, b⟩ := p
          simp
        omega
  intro v
  exact key (sizeOf v + 1) v (Nat.lt_succ_self _)

/-- Array elements serialize memberwise after the bigint-replacer pass. -/
theorem stringifyJsonList_isSome (elems : List JsonValue)
    (h : ∀ v ∈ elems,
      (stringifyJson (mapJson jsonReplacer v)).isSome = true) :
    (stringifyJsonList (mapJsonList jsonReplacer elems)).isSome = true := by
  induction elems with
  | nil => rfl
  | cons v rest ih =>
    have h1 := h v (by simp)
    have h2 := ih (fun u hu => h u (by simp [hu]))
    rcases hs : stringifyJson (mapJson jsonReplacer v) with _ | s
    · rw [hs] at h1; simp at h1
    · rcases hl : stringifyJsonList (mapJsonList jsonReplacer rest)
        with _ | ss
      · rw [hl] at h2; simp at h2
      · simp only [mapJsonList, stringifyJsonList, hs, hl]
        rfl

/-- Object fields serialize memberwise after the bigint-replacer pass. -/
theorem stringifyJsonFields_isSome (fields : List (String × JsonValue))
    (h : ∀ p ∈ fields,
      (stringifyJson (mapJson jsonReplacer p.2)).isSome = true) :
    (stringifyJsonFields (mapJsonFields jsonReplacer fields)).isSome
      = true := by
  induction fields with
  | nil => rfl
  | cons p rest ih =>
    have h1 := h p (by simp)
    have h2 := ih (fun u hu => h u (by simp [hu]))
    rcases hs : stringifyJson (mapJson jsonReplacer p.2) with _ | s
    · rw [hs] at h1; simp at h1
    · rcases hl : stringifyJsonFields (mapJsonFields jsonReplacer rest)
        with _ | ss
      · rw [hl] at h2; simp at h2
      · simp only [mapJsonFields, stringifyJsonFields, hs, hl]
        rfl

/-- With the bigint replacer applied first, serialization never fails. -/
theorem stringifyJson_mapReplacer_isSome :
    ∀ v : JsonValue,
      (stringifyJson (mapJson jsonReplacer v)).isSome = true := by
  refine JsonValue.induction_mem _ rfl (fun b => ?_) (fun n => rfl)
    (fun s => rfl) (fun n => rfl) (fun elems hmem => ?_)
    (fun fields hmem => ?_)
  · cases b <;> rfl
  · have hl := stringifyJsonList_isSome elems hmem
    rcases hx : stringifyJsonList (mapJsonList jsonReplacer elems)
      with _ | ss
    · rw [hx] at hl; simp at hl
    · simp only [mapJson, jsonReplacer, stringifyJson, hx]
      rfl
  · have hl := stringifyJsonFields_isSome fields hmem
    rcases hx : stringifyJsonFields (mapJsonFields jsonReplacer fields)
      with _ | ss
    · rw [hx] at hl; simp at hl
    · simp only [mapJson, jsonReplacer, stringifyJson, hx]
      rfl

/-- Intercalating a one-element list is that element. -/
theorem intercalate_one (s a : String) : String.intercalate s [a] = a := rfl

/-- C8: `json(status, body)` always serializes successfully and produces a
response with the given status and `Content-Type: application/json` (first
conjunct); a bigint in the body is rendered as its decimal string form
(second conjunct, for a one-field object body as in the
`json(200, (n: 9007199254740993n))` example), whereas serialization without
the replacer fails on the same body (third conjunct). -/
theorem c8_json_bigint_decimal (statusCode : Nat) (body : JsonValue) :
    (∃ r, toJson statusCode body = some r ∧ r.status = statusCode
        ∧ r.contentType = some "application/json")
    ∧ (∀ (k : String) (n : Int),
        toJson statusCode (JsonValue.obj [(k, JsonValue.bigint n)])
          = some ⟨statusCode,
              "\x7b" ++ quoteJson k ++ ":" ++ quoteJson (toString n)
                ++ "\x7d",
              some "application/json"⟩)
    ∧ (∀ (k : String) (n : Int),
        stringifyJson (JsonValue.obj [(k, JsonValue.bigint n)]) = none) := by
  refine ⟨?_, ?_, fun k n => rfl⟩
  · have h := stringifyJson_mapReplacer_isSome body
    rcases hx : stringifyJson (mapJson jsonReplacer body) with _ | s
    · rw [hx] at h; simp at h
    · exact ⟨⟨statusCode, s, some "application/json"⟩,
        by simp [toJson, hx], rfl, rfl⟩
  · intro k n
    unfold toJson
    have h1 : mapJson jsonReplacer (JsonValue.obj [(k, JsonValue.bigint n)])
        = JsonValue.obj [(k, JsonValue.str (toString n))] := rfl
    rw [h1]
    have h2 : stringifyJson (JsonValue.obj [(k, JsonValue.str (toString n))])
        = some ("\x7b" ++ (quoteJson k ++ ":" ++ quoteJson (toString n))
            ++ "\x7d") := by
      simp only [stringifyJson, stringifyJsonFields, intercalate_one]
      rfl
    rw [h2]
    simp [String.append_assoc]

end DenoRouter
